import Mathlib

/-!
Verification development for the `vector-store` repository: a single-file
document store (`src/index.ts`) that keeps text content paired with
fixed-width numeric embedding vectors and answers nearest-neighbor queries
by exhaustive cosine-similarity ranking (`src/search.ts`).

The TypeScript code is shallowly embedded: the module-level mutable state of
`index.ts` (`storePath`, `storeData`) together with the backing filesystem
becomes an explicit state record threaded through the operations; thrown
exceptions become `Except`-style error results paired with the state left
behind by the mutations performed before the throw (JavaScript exceptions do
not roll back assignments, so the post-throw state is modelled faithfully).
JavaScript numbers appearing as embedding elements are modelled by `JsNum`
(a finite rational, NaN, ±Infinity, or a non-numeric value), since the
validation code inspects exactly those cases.  The advisory file lock is a
no-op in this sequential model: lock acquisition always succeeds; what the
model does capture is at which program point (before or after acquisition)
the store contents are read.
-/

deriving instance DecidableEq for Except

namespace VectorStore

/-- A JavaScript value that may appear as an element of an `embedding` array.
`validateEmbedding` in `src/index.ts` checks `typeof v !== 'number'`,
`Number.isNaN(v)` and `!Number.isFinite(v)`, so the model distinguishes
finite numbers, `NaN`, the two infinities, and non-numeric values. -/
inductive JsNum where
  | num (q : ℚ)
  | nan
  | posInf
  | negInf
  | nonNumber
deriving DecidableEq, Repr

/-- `typeof v === 'number' && !Number.isNaN(v) && Number.isFinite(v)`. -/
def JsNum.isFiniteNumber : JsNum → Bool
  | .num _ => true
  | _ => false

/-- The `Document` interface of `src/index.ts` / `src/types/document.ts`:
content string, embedding vector, and creation timestamp in ms. -/
structure Document where
  content : String
  embedding : List JsNum
  timestamp : ℤ
deriving DecidableEq, Repr

/-- The in-memory/persisted store shape `{ embeddingSize, documents }`.
`embeddingSize` is a JavaScript number (the loader only checks
`typeof data.embeddingSize === 'number'`), hence a rational here. -/
structure Store where
  embeddingSize : ℚ
  documents : List Document
deriving DecidableEq, Repr

/-- `const MAX_STORE_SIZE = Number(process.env['MAX_STORE_SIZE']) || 10000`,
modelled at its default value. -/
def MAX_STORE_SIZE : ℕ := 10000

/-- The backing filesystem at the granularity the store engine uses it:
paths mapped to parsed store contents.  An association list where the most
recent write shadows older entries.  (Parse/schema failures of raw file text
are modelled separately at the `JValue` level below.) -/
abbrev FS : Type := List (String × Store)

/-- Read a file: the most recent binding for the path. -/
def fsGet (fs : FS) (p : String) : Option Store :=
  (fs.find? (fun e => e.1 == p)).map (fun e => e.2)

/-- Overwrite a file (the engine-level view of `saveStoreData`, whose
write-temp-then-rename mechanics are verified separately below). -/
def fsSet (fs : FS) (p : String) (st : Store) : FS :=
  (p, st) :: fs

/-- The process state of `src/index.ts`: the module variables `storePath`
and `storeData` (the in-memory cache), plus the filesystem. -/
structure VState where
  storePath : Option String
  storeData : Option Store
  fs : FS
deriving DecidableEq

/-- The distinguishable failures thrown by the engine, one constructor per
`throw` site class in `src/index.ts`. -/
inductive VErr where
  | invalidPath
  | notConfigured
  | missingEmbeddingSize
  | schemaMismatch
  | notFound
  | corruptStore
  | invalidContent
  | invalidEmbedding
  | storeFull
  | invalidK
deriving DecidableEq, Repr

/-- The spec's `InvalidInput` taxonomy class: bad content, embedding, path
or `k` (section 7 of the spec). -/
def VErr.isInvalidInput : VErr → Bool
  | .invalidPath | .missingEmbeddingSize | .invalidContent
  | .invalidEmbedding | .invalidK => true
  | _ => false

/-- Whether an engine outcome is an InvalidInput-class failure. -/
def isInvalidInputResult : Except VErr Unit → Bool
  | .error e => e.isInvalidInput
  | .ok _ => false

/-- `validateContent`: `typeof content !== 'string' || !content.trim()`
throws; the model's contents are always strings, so the check is that the
trimmed content is nonempty — equivalently, that some character is not
whitespace. -/
def contentOk (content : String) : Bool :=
  content.data.any (fun ch => !ch.isWhitespace)

/-- `validateEmbedding(embedding, embeddingSize)`: length must equal the
configured size (a JS `!==` comparison of numbers, so the length is compared
as a rational) and every element must be a finite number. -/
def validateEmbedding (embedding : List JsNum) (embeddingSize : ℚ) : Except VErr Unit :=
  if (embedding.length : ℚ) ≠ embeddingSize then
    .error .invalidEmbedding
  else if embedding.any (fun v => !v.isFiniteNumber) then
    .error .invalidEmbedding
  else
    .ok ()

/-- `getStoreData()`: requires a configured path; returns the cached
`storeData` when present, otherwise loads from disk (caching the result) or
fails when the file is absent. -/
def getStoreData (s : VState) : Except VErr Store × VState :=
  match s.storePath with
  | none => (.error .notConfigured, s)
  | some p =>
    match s.storeData with
    | some st => (.ok st, s)
    | none =>
      match fsGet s.fs p with
      | none => (.error .notFound, s)
      | some st => (.ok st, { s with storeData := some st })

/-- `configureStorePath(p, embeddingSize?)`.  Path validation
(`isValidPath`: home-directory confinement, no `..`, `.json` suffix) is the
external path-authorization collaborator of the spec and is a parameter.
Mirrors the source's mutation order: `storePath` is assigned and the cache
cleared *before* the existence check and the mismatch/missing-size throws. -/
def configureStorePath (isValidPath : String → Bool) (s : VState)
    (p : String) (embeddingSize : Option ℚ) : Except VErr Unit × VState :=
  if ¬ isValidPath p then
    (.error .invalidPath, s)
  else
    let s1 : VState := { s with storePath := some p, storeData := none }
    match fsGet s1.fs p with
    | some existing =>
      match embeddingSize with
      | some n =>
        if existing.embeddingSize ≠ n then
          (.error .schemaMismatch, s1)
        else
          (.ok (), s1)
      | none => (.ok (), s1)
    | none =>
      match embeddingSize with
      | none => (.error .missingEmbeddingSize, s1)
      | some n =>
        let st : Store := { embeddingSize := n, documents := [] }
        (.ok (), { s1 with storeData := some st, fs := fsSet s1.fs p st })

/-- `addDocument(content, embedding)` at time `now`.  The source validates
content, reads the store via `getStoreData()` (cache-first, *before* taking
the file lock), validates the embedding, checks the size ceiling, acquires
the lock, pushes the new document onto the (shared) cached array and
persists it.  Lock acquisition is the sequential no-op between the ceiling
check and the push. -/
def addDocument (s : VState) (content : String) (embedding : List JsNum)
    (now : ℤ) : Except VErr Unit × VState :=
  if ¬ contentOk content then
    (.error .invalidContent, s)
  else
    match getStoreData s with
    | (.error e, s1) => (.error e, s1)
    | (.ok st, s1) =>
      match validateEmbedding embedding st.embeddingSize with
      | .error e => (.error e, s1)
      | .ok _ =>
        if MAX_STORE_SIZE ≤ st.documents.length then
          (.error .storeFull, s1)
        else
          match s1.storePath with
          | none => (.error .notConfigured, s1)
          | some p =>
            let newStore : Store :=
              { embeddingSize := st.embeddingSize
                documents := st.documents ++ [⟨content, embedding, now⟩] }
            (.ok (), { s1 with storeData := some newStore
                               fs := fsSet s1.fs p newStore })

/-- The result shape of `topKSimilar`: the JavaScript spread
`{ ...doc, score }` — all `Document` fields plus a numeric `score`. -/
structure ScoredDocument where
  content : String
  embedding : List JsNum
  timestamp : ℤ
  score : ℚ
deriving DecidableEq, Repr

/-- `documents.map(doc => ({ ...doc, score: getCosineSimilarity(query, doc.embedding) }))`.
`getCosineSimilarity` (in `vectorUtils.ts`) delegates to the external
`cosine-similarity` npm package, so the similarity function is a parameter
`sim` throughout; the ranking claims hold for every `sim`. -/
def scoreDocs (sim : List JsNum → List JsNum → ℚ)
    (queryEmbedding : List JsNum) (documents : List Document) : List ScoredDocument :=
  documents.map (fun d =>
    { content := d.content, embedding := d.embedding
      timestamp := d.timestamp, score := sim queryEmbedding d.embedding })

/-- The JavaScript comparator `(a, b) => b.score - a.score`: `a` sorts no
later than `b` exactly when `b.score ≤ a.score` (descending by score). -/
def scoredLE (a b : ScoredDocument) : Bool :=
  decide (b.score ≤ a.score)

/-- `topKSimilar(queryEmbedding, documents, k)` from `src/search.ts`:
score every document, sort with the descending comparator (JS
`Array.prototype.sort` is a stable sort, modelled by `List.mergeSort`,
the unique stable sort for this comparator), and `slice(0, k)`. -/
def topKSimilar (sim : List JsNum → List JsNum → ℚ)
    (queryEmbedding : List JsNum) (documents : List Document) (k : ℕ) : List ScoredDocument :=
  ((scoreDocs sim queryEmbedding documents).mergeSort scoredLE).take k

/-- `search(contentEmbedding, k)`: requires a configured path, takes the
lock, reads the store (cache-first), validates the query embedding and `k`
(a positive integer; `k : ℤ` here, so the `Number.isInteger` test is
implicit), and ranks.  Purely a read: only the cache may be populated. -/
def search (sim : List JsNum → List JsNum → ℚ) (s : VState)
    (contentEmbedding : List JsNum) (k : ℤ) :
    Except VErr (List ScoredDocument) × VState :=
  match s.storePath with
  | none => (.error .notConfigured, s)
  | some _ =>
    match getStoreData s with
    | (.error e, s1) => (.error e, s1)
    | (.ok st, s1) =>
      match validateEmbedding contentEmbedding st.embeddingSize with
      | .error e => (.error e, s1)
      | .ok _ =>
        if k ≤ 0 then (.error .invalidK, s1)
        else (.ok (topKSimilar sim contentEmbedding st.documents k.toNat), s1)

/-! ## Raw persisted-file level

`loadStoreData` (`src/index.ts` lines 72–82) reads the raw file text,
`JSON.parse`s it, and checks `typeof data.embeddingSize === 'number'` and
`Array.isArray(data.documents)`.  The raw file is modelled as
`Option (Option JValue)`: `none` = file absent (`readFileSync` throws
ENOENT, the NotFound failure), `some none` = present but unparseable
(`JSON.parse` throws, a CorruptStore failure), `some (some j)` = parses to
the JSON value `j`. -/

/-- A parsed JSON value (`JSON.parse` output). -/
inductive JValue where
  | null
  | bool (b : Bool)
  | num (q : ℚ)
  | str (s : String)
  | arr (elems : List JValue)
  | obj (fields : List (String × JValue))

/-- JavaScript property access `j[k]`: `none` models `undefined` (and the
`TypeError` thrown on `null`, which the caller also surfaces as a load
failure). -/
def getField (j : JValue) (k : String) : Option JValue :=
  match j with
  | .obj fields => (fields.find? (fun f => f.1 == k)).map (fun f => f.2)
  | _ => none

/-- The load-time failures of `loadStoreData`. -/
inductive LoadErr where
  | notFound
  | corruptStore
deriving DecidableEq, Repr

/-- `typeof x === 'number'` on a possibly-undefined property: extracts the
numeric payload when the test passes. -/
def asNum : Option JValue → Option ℚ
  | some (.num q) => some q
  | _ => none

/-- `Array.isArray(x)` on a possibly-undefined property: extracts the array
elements when the test passes. -/
def asArr : Option JValue → Option (List JValue)
  | some (.arr elems) => some elems
  | _ => none

/-- `loadStoreData(filePath)` over the raw file model: absent file →
NotFound; unparseable → CorruptStore; parsed value whose `embeddingSize` is
not a number or whose `documents` is not an array → CorruptStore
(`'Invalid store file format.'`); otherwise the decoded pair. -/
def loadStoreData (file : Option (Option JValue)) :
    Except LoadErr (ℚ × List JValue) :=
  match file with
  | none => .error .notFound
  | some none => .error .corruptStore
  | some (some j) =>
    match asNum (getField j "embeddingSize"), asArr (getField j "documents") with
    | some q, some docs => .ok (q, docs)
    | _, _ => .error .corruptStore

/-- The schema test of `loadStoreData` in isolation: `true` when the decoded
structure lacks a numeric `embeddingSize` or an array-typed `documents`
(the source's `typeof data.embeddingSize !== 'number' ||
!Array.isArray(data.documents)`). -/
def badSchema (j : JValue) : Bool :=
  (asNum (getField j "embeddingSize")).isNone || (asArr (getField j "documents")).isNone

/-! ## Raw filesystem level: the atomic write

`atomicWriteFileSync` (`src/index.ts` lines 46–51) writes the data to
`filePath + '.tmp'` with `fs.writeFileSync` and then `fs.renameSync`s the
temp file onto the target.  The filesystem is a map from paths to raw file
contents; the two primitive operations are embedded separately so the
intermediate (crash) state is a first-class object. -/

/-- Raw filesystem: paths to file contents. -/
def FileSys : Type := String → Option String

/-- `fs.writeFileSync(p, d)`. -/
def fsWrite (fs : FileSys) (p : String) (d : String) : FileSys :=
  fun q => if q = p then some d else fs q

/-- `fs.renameSync(src, dst)`: `dst` receives `src`'s content, `src` is
removed. -/
def fsRename (fs : FileSys) (src dst : String) : FileSys :=
  fun q => if q = dst then fs src else if q = src then none else fs q

/-- `const tempPath = filePath + '.tmp'`. -/
def tmpPath (filePath : String) : String := filePath ++ ".tmp"

/-- The filesystem after the first step of `atomicWriteFileSync` (the
`writeFileSync` to the temp file) — the state a crash mid-operation leaves
behind. -/
def atomicWriteStep1 (fs : FileSys) (filePath data : String) : FileSys :=
  fsWrite fs (tmpPath filePath) data

/-- `atomicWriteFileSync(filePath, data)`: write the temp file, then rename
it over the target. -/
def atomicWriteFileSync (fs : FileSys) (filePath data : String) : FileSys :=
  fsRename (atomicWriteStep1 fs filePath data) (tmpPath filePath) filePath

/-- `saveStoreData(data, filePath)` delegates to `atomicWriteFileSync` with
the serialized store (`JSON.stringify(data, null, 2)`, abstracted as an
uninterpreted serialization parameter in the theorems). -/
def saveStoreDataRaw (fs : FileSys) (serialized : String) (filePath : String) : FileSys :=
  atomicWriteFileSync fs filePath serialized

/-! ## Vector math

`getCosineSimilarity` (`src/vectorUtils.ts`) delegates to the external
`cosine-similarity` npm package, whose code is not part of this repository.
Modelled from the spec: `dot(a,b) / (‖a‖·‖b‖)`, defined as `0` when either
vector's norm is `0`. -/

/-- Dot product of two real vectors (pointwise product, summed). -/
def dotR (a b : List ℝ) : ℝ := (List.zipWith (· * ·) a b).sum

/-- Euclidean norm `‖a‖ = √(a·a)`. -/
noncomputable def normR (a : List ℝ) : ℝ := Real.sqrt (dotR a a)

/-- Modelled from the spec: the cosine-similarity function the repository
imports from the external `cosine-similarity` package —
`dot(a,b) / (‖a‖·‖b‖)`, with the documented policy that the result is `0`
when either norm is `0`. -/
noncomputable def getCosineSimilarity (a b : List ℝ) : ℝ :=
  if normR a = 0 ∨ normR b = 0 then 0 else dotR a b / (normR a * normR b)

/-! ## Reachability for the dimension invariant -/

/-- Well-formedness of a store: every document's embedding length equals the
store's `embeddingSize` (compared as JS numbers). -/
def StoreWF (st : Store) : Prop :=
  ∀ d ∈ st.documents, (d.embedding.length : ℚ) = st.embeddingSize

/-- States reachable by the public operations from a store *created* by
`configureStorePath` with an embedding size at a previously nonexistent
path, followed by any sequence of inserts and queries (the lifecycle the
spec's invariant quantifies over). -/
inductive Reached (isValidPath : String → Bool)
    (sim : List JsNum → List JsNum → ℚ) : VState → Prop where
  | configured (s : VState) (p : String) (n : ℚ) (s' : VState) :
      fsGet s.fs p = none →
      configureStorePath isValidPath s p (some n) = (.ok (), s') →
      Reached isValidPath sim s'
  | add (s : VState) (content : String) (embedding : List JsNum) (now : ℤ)
      (r : Except VErr Unit) (s' : VState) :
      Reached isValidPath sim s →
      addDocument s content embedding now = (r, s') →
      Reached isValidPath sim s'
  | query (s : VState) (q : List JsNum) (k : ℤ)
      (r : Except VErr (List ScoredDocument)) (s' : VState) :
      Reached isValidPath sim s →
      search sim s q k = (r, s') →
      Reached isValidPath sim s'

/-- The inductive invariant carried through `Reached`: the cached store (if
any) is well-formed, and the store on disk at the configured path (if any)
is well-formed. -/
def Inv (s : VState) : Prop :=
  (∀ st, s.storeData = some st → StoreWF st) ∧
  (∀ p st, s.storePath = some p → fsGet s.fs p = some st → StoreWF st)

/-! ## Concrete states used in counterexamples and witnesses -/

/-- A document with a 3-dimensional embedding. -/
def doc3 : Document := ⟨"a", [.num 1, .num 2, .num 3], 0⟩

/-- A store holding exactly `MAX_STORE_SIZE` documents. -/
def fullStore : Store := ⟨3, List.replicate MAX_STORE_SIZE doc3⟩

/-- A process state whose cache holds the full store. -/
def fullState : VState := ⟨some "store.json", some fullStore, []⟩

/-- A process state whose in-memory cache lags the disk: the cache saw one
document, but the backing file (as another process would have left it)
holds two. -/
def staleCacheState : VState :=
  { storePath := some "store.json"
    storeData := some ⟨1, [⟨"a", [.num 1], 0⟩]⟩
    fs := [("store.json", ⟨1, [⟨"a", [.num 1], 0⟩, ⟨"b", [.num 2], 1⟩]⟩)] }

/-- A configured process state (path `old.json`, loaded cache) alongside a
differently-sized store file at `new.json`. -/
def preConfState : VState :=
  { storePath := some "old.json"
    storeData := some ⟨3, []⟩
    fs := [("new.json", ⟨3, []⟩)] }

/-! ## Helper lemmas -/

/-- The temp path is never the target path: it is four characters longer. -/
theorem tmpPath_ne (p : String) : tmpPath p ≠ p := by
  intro h
  have h2 := congrArg String.length h
  have h4 : (".tmp" : String).length = 4 := rfl
  rw [tmpPath, String.length_append, h4] at h2
  omega

/-- Reading back the path just written returns the written store. -/
theorem fsGet_fsSet_self (fs : FS) (p : String) (st : Store) :
    fsGet (fsSet fs p st) p = some st := by
  simp [fsGet, fsSet, List.find?]

/-- The descending-score comparator is transitive. -/
theorem scoredLE_trans (a b c : ScoredDocument) :
    scoredLE a b → scoredLE b c → scoredLE a c := by
  simp only [scoredLE, decide_eq_true_eq]
  exact fun h1 h2 => le_trans h2 h1

/-- The descending-score comparator is total. -/
theorem scoredLE_total (a b : ScoredDocument) : scoredLE a b || scoredLE b a := by
  simp only [scoredLE, Bool.or_eq_true, decide_eq_true_eq]
  exact le_total b.score a.score

/-- `getStoreData` never touches the filesystem or the configured path, and
leaves the state entirely unchanged when a cache is present. -/
theorem getStoreData_state (s : VState) :
    (getStoreData s).2.fs = s.fs ∧
    (getStoreData s).2.storePath = s.storePath ∧
    (∀ st, s.storeData = some st → (getStoreData s).2 = s) := by
  rcases hsp : s.storePath with _ | p
  · have hred : getStoreData s = (.error .notConfigured, s) := by
      simp only [getStoreData, hsp]
    rw [hred]
    exact ⟨rfl, hsp, fun _ _ => rfl⟩
  · rcases hsd : s.storeData with _ | st
    · rcases hfs : fsGet s.fs p with _ | st
      · have hred : getStoreData s = (.error .notFound, s) := by
          simp only [getStoreData, hsp, hsd, hfs]
        rw [hred]
        exact ⟨rfl, hsp, fun _ _ => rfl⟩
      · have hred : getStoreData s = (.ok st, { s with storeData := some st }) := by
          simp only [getStoreData, hsp, hsd, hfs]
        rw [hred]
        exact ⟨rfl, hsp, fun _ h => nomatch h⟩
    · have hred : getStoreData s = (.ok st, s) := by
        simp only [getStoreData, hsp, hsd]
      rw [hred]
      exact ⟨rfl, hsp, fun _ _ => rfl⟩

/-- An accepted embedding has exactly the configured length. -/
theorem validateEmbedding_ok_length (emb : List JsNum) (n : ℚ)
    (h : validateEmbedding emb n = .ok ()) : (emb.length : ℚ) = n := by
  rw [validateEmbedding] at h
  by_cases hl : (emb.length : ℚ) ≠ n
  · rw [if_pos hl] at h
    cases h
  · exact not_not.mp hl

/-- `getStoreData` preserves the dimension invariant, and any store it
returns satisfies it (it comes from the cache or the configured path's
file, both covered by `Inv`). -/
theorem getStoreData_inv (s : VState) (hs : Inv s) :
    Inv (getStoreData s).2 ∧
    (∀ st, (getStoreData s).1 = .ok st →
      StoreWF st ∧ (getStoreData s).2.storeData = some st ∧
      (getStoreData s).2.storePath = s.storePath ∧ (getStoreData s).2.fs = s.fs) := by
  rcases hsp : s.storePath with _ | p
  · have hred : getStoreData s = (.error .notConfigured, s) := by
      simp only [getStoreData, hsp]
    rw [hred]
    exact ⟨hs, fun _ hst => nomatch hst⟩
  · rcases hsd : s.storeData with _ | st
    · rcases hfs : fsGet s.fs p with _ | st
      · have hred : getStoreData s = (.error .notFound, s) := by
          simp only [getStoreData, hsp, hsd, hfs]
        rw [hred]
        exact ⟨hs, fun _ hst => nomatch hst⟩
      · have hwf : StoreWF st := hs.2 p st hsp hfs
        have hred : getStoreData s = (.ok st, { s with storeData := some st }) := by
          simp only [getStoreData, hsp, hsd, hfs]
        rw [hred]
        refine ⟨⟨fun st2 hst2 => ?_, fun p2 st2 hp2 hst2 => ?_⟩, ?_⟩
        · injection hst2 with h2
          exact h2 ▸ hwf
        · exact hs.2 p2 st2 hp2 hst2
        · intro st2 hst2
          injection hst2 with h2
          exact ⟨h2 ▸ hwf, by rw [← h2], hsp, rfl⟩
    · have hwf : StoreWF st := hs.1 st hsd
      have hred : getStoreData s = (.ok st, s) := by
        simp only [getStoreData, hsp, hsd]
      rw [hred]
      refine ⟨hs, fun st2 hst2 => ?_⟩
      injection hst2 with h2
      exact ⟨h2 ▸ hwf, h2 ▸ hsd, hsp, rfl⟩

/-- `addDocument` preserves the dimension invariant. -/
theorem addDocument_inv (s : VState) (c : String) (emb : List JsNum) (t : ℤ)
    (r : Except VErr Unit) (s' : VState) (hs : Inv s)
    (h : addDocument s c emb t = (r, s')) : Inv s' := by
  obtain ⟨inv1, okfacts⟩ := getStoreData_inv s hs
  rcases hg : getStoreData s with ⟨res, s1⟩
  rw [hg] at inv1 okfacts
  by_cases hc : contentOk c
  · rcases res with e | st
    · have hred : addDocument s c emb t = (.error e, s1) := by
        rw [addDocument, hg]
        simp [hc]
      rw [hred] at h
      cases h
      exact inv1
    · obtain ⟨hwf, hsd1, hsp1, hfs1⟩ := okfacts st rfl
      rcases hv : validateEmbedding emb st.embeddingSize with e | u
      · have hred : addDocument s c emb t = (.error e, s1) := by
          rw [addDocument, hg]
          simp [hc, hv]
        rw [hred] at h
        cases h
        exact inv1
      · rcases u
        by_cases hfull : MAX_STORE_SIZE ≤ st.documents.length
        · have hred : addDocument s c emb t = (.error .storeFull, s1) := by
            rw [addDocument, hg]
            simp [hc, hv, hfull]
          rw [hred] at h
          cases h
          exact inv1
        · rcases hpp : s1.storePath with _ | p
          · have hred : addDocument s c emb t = (.error .notConfigured, s1) := by
              rw [addDocument, hg]
              simp [hc, hv, hfull, hpp]
            rw [hred] at h
            cases h
            exact inv1
          · have hred : addDocument s c emb t =
                (.ok (), { s1 with
                  storeData := some ⟨st.embeddingSize, st.documents ++ [⟨c, emb, t⟩]⟩
                  fs := fsSet s1.fs p
                    ⟨st.embeddingSize, st.documents ++ [⟨c, emb, t⟩]⟩ }) := by
              rw [addDocument, hg]
              simp [hc, hv, hfull, hpp]
            rw [hred] at h
            cases h
            have hlen : (emb.length : ℚ) = st.embeddingSize :=
              validateEmbedding_ok_length emb st.embeddingSize hv
            have hwf2 : StoreWF ⟨st.embeddingSize, st.documents ++ [⟨c, emb, t⟩]⟩ := by
              intro d hd
              rcases List.mem_append.mp hd with hold | hnew
              · exact hwf d hold
              · rcases List.mem_singleton.mp hnew with rfl
                exact hlen
            refine ⟨fun st2 hst2 => ?_, fun p2 st2 hp2 hst2 => ?_⟩
            · have hst2a : some (⟨st.embeddingSize,
                  st.documents ++ [⟨c, emb, t⟩]⟩ : Store) = some st2 := hst2
              injection hst2a with h3
              exact h3 ▸ hwf2
            · have hp2a : s1.storePath = some p2 := hp2
              rw [hpp] at hp2a
              injection hp2a with h3
              subst h3
              have hst2a : fsGet (fsSet s1.fs p
                  ⟨st.embeddingSize, st.documents ++ [⟨c, emb, t⟩]⟩) p = some st2 := hst2
              rw [fsGet_fsSet_self] at hst2a
              injection hst2a with h4
              exact h4 ▸ hwf2
  · have hred : addDocument s c emb t = (.error .invalidContent, s) := by
      rw [addDocument]
      simp [hc]
    rw [hred] at h
    cases h
    exact hs

/-- `search` preserves the dimension invariant (it only reads). -/
theorem search_inv (sim : List JsNum → List JsNum → ℚ) (s : VState)
    (q : List JsNum) (k : ℤ) (r : Except VErr (List ScoredDocument))
    (s' : VState) (hs : Inv s) (h : search sim s q k = (r, s')) : Inv s' := by
  obtain ⟨inv1, okfacts⟩ := getStoreData_inv s hs
  rcases hg : getStoreData s with ⟨res, s1⟩
  rw [hg] at inv1 okfacts
  rcases hsp : s.storePath with _ | p
  · have hred : search sim s q k = (.error .notConfigured, s) := by
      simp only [search, hsp]
    rw [hred] at h
    cases h
    exact hs
  · rcases res with e | st
    · have hred : search sim s q k = (.error e, s1) := by
        simp only [search, hsp, hg]
      rw [hred] at h
      cases h
      exact inv1
    · rcases hv : validateEmbedding q st.embeddingSize with e | u
      · have hred : search sim s q k = (.error e, s1) := by
          simp only [search, hsp, hg, hv]
        rw [hred] at h
        cases h
        exact inv1
      · rcases u
        by_cases hk : k ≤ 0
        · have hred : search sim s q k = (.error .invalidK, s1) := by
            simp only [search, hsp, hg, hv]
            rw [if_pos hk]
          rw [hred] at h
          cases h
          exact inv1
        · have hred : search sim s q k =
              (.ok (topKSimilar sim q st.documents k.toNat), s1) := by
            simp only [search, hsp, hg, hv]
            rw [if_neg hk]
          rw [hred] at h
          cases h
          exact inv1

/-! ## Claim theorems -/

/-- C5: `atomicWriteFileSync` writes the full data to the sibling temp file
`<path>.tmp` and then renames it onto `<path>`: after the first step (the
crash window) the target still holds exactly its old content; after the
rename the target holds exactly the new content; and no other file (beyond
the target and its temp sibling) is affected. -/
theorem atomicWriteFileSync_atomic (fs : FileSys) (filePath data : String) :
    atomicWriteStep1 fs filePath data filePath = fs filePath ∧
    atomicWriteFileSync fs filePath data filePath = some data ∧
    (∀ q, q ≠ filePath → q ≠ tmpPath filePath →
      atomicWriteFileSync fs filePath data q = fs q) := by
  refine ⟨?_, ?_, ?_⟩
  · rw [atomicWriteStep1, fsWrite]
    rw [if_neg (fun h => tmpPath_ne filePath h.symm)]
  · rw [atomicWriteFileSync, fsRename, if_pos rfl, atomicWriteStep1, fsWrite,
      if_pos rfl]
  · intro q hq hqt
    rw [atomicWriteFileSync, fsRename, if_neg hq, if_neg hqt,
      atomicWriteStep1, fsWrite, if_neg hqt]

/-- C5 witness: the atomicity facts evaluated at a concrete filesystem,
path and content, the inner hypotheses discharged at a concrete other
path. -/
theorem atomicWriteFileSync_atomic_witness :
    atomicWriteStep1 (fun _ => none) "store.json" "DATA" "store.json" =
      (fun _ => (none : Option String)) "store.json" ∧
    atomicWriteFileSync (fun _ => none) "store.json" "DATA" "store.json" = some "DATA" ∧
    atomicWriteFileSync (fun _ => none) "store.json" "DATA" "other.json" =
      (fun _ => (none : Option String)) "other.json" := by
  obtain ⟨h1, h2, h3⟩ := atomicWriteFileSync_atomic (fun _ => none) "store.json" "DATA"
  exact ⟨h1, h2, h3 "other.json" (by decide) (by decide)⟩

/-- C2: the modelled cosine similarity equals `dot(a,b) / (‖a‖·‖b‖)` for
equal-length vectors, and is `0` (not undefined) whenever either vector's
norm is `0`. -/
theorem getCosineSimilarity_spec (a b : List ℝ) (h : a.length = b.length) :
    getCosineSimilarity a b = dotR a b / (normR a * normR b) ∧
    ((normR a = 0 ∨ normR b = 0) → getCosineSimilarity a b = 0) := by
  constructor
  · rw [getCosineSimilarity]
    split
    · rename_i hz
      rcases hz with hz | hz
      · rw [hz, zero_mul, div_zero]
      · rw [hz, mul_zero, div_zero]
    · rfl
  · intro hz
    rw [getCosineSimilarity, if_pos hz]

/-- C2 witness: the cosine-similarity facts at the concrete degenerate pair
`([0], [0])`, whose norms are both `0`. -/
theorem getCosineSimilarity_spec_witness :
    getCosineSimilarity [(0 : ℝ)] [0] = dotR [0] [0] / (normR [0] * normR [0]) ∧
    ((normR [(0 : ℝ)] = 0 ∨ normR [(0 : ℝ)] = 0) → getCosineSimilarity [(0 : ℝ)] [0] = 0) :=
  getCosineSimilarity_spec [0] [0] rfl

/-- C6 counterexample: a parsed store file whose `embeddingSize` is the
non-integer number `5/2` and whose `documents` is `[]` is accepted by
`loadStoreData` (the code only checks `typeof data.embeddingSize ===
'number'`), while the claim requires a CorruptStore failure for a
non-integer `embeddingSize`. -/
theorem loadStoreData_nonInteger_accepted :
    loadStoreData (some (some (.obj
      [("embeddingSize", .num (5 / 2)), ("documents", .arr [])]))) =
      .ok (5 / 2, []) ∧ (5 / 2 : ℚ).den ≠ 1 := by
  exact ⟨rfl, by norm_num⟩

/-- C6 (amended): `loadStoreData` fails with NotFound exactly when the file
is absent; fails with CorruptStore exactly when the content is unparseable
or the decoded structure lacks a *numeric* `embeddingSize` or an
array-typed `documents` field; and in every other case returns the decoded
size/documents pair. -/
theorem loadStoreData_spec (file : Option (Option JValue)) :
    (loadStoreData file = .error .notFound ↔ file = none) ∧
    (loadStoreData file = .error .corruptStore ↔
      file = some none ∨ ∃ j, file = some (some j) ∧ badSchema j = true) ∧
    (∀ j, file = some (some j) → badSchema j = false →
      ∃ q docs, loadStoreData file = .ok (q, docs) ∧
        getField j "embeddingSize" = some (.num q) ∧
        getField j "documents" = some (.arr docs)) := by
  rcases file with _ | f
  · exact ⟨by simp [loadStoreData], by simp [loadStoreData], by simp⟩
  rcases f with _ | j
  · exact ⟨by simp [loadStoreData], by simp [loadStoreData], by simp⟩
  · refine ⟨?_, ?_, ?_⟩
    · rcases hq : asNum (getField j "embeddingSize") with _ | q <;>
        rcases hd : asArr (getField j "documents") with _ | docs <;>
        simp [loadStoreData, hq, hd]
    · rcases hq : asNum (getField j "embeddingSize") with _ | q <;>
        rcases hd : asArr (getField j "documents") with _ | docs <;>
        simp [loadStoreData, badSchema, hq, hd]
    · intro j' hj' hb
      obtain rfl : j = j' := by
        injection hj' with h
        injection h
      rw [badSchema] at hb
      rcases hq : asNum (getField j "embeddingSize") with _ | q <;>
        rcases hd : asArr (getField j "documents") with _ | docs <;>
        rw [hq, hd] at hb <;> simp at hb
      refine ⟨q, docs, by simp [loadStoreData, hq, hd], ?_, ?_⟩
      · rcases hg : getField j "embeddingSize" with _ | v
        · rw [hg] at hq; simp [asNum] at hq
        · rw [hg] at hq
          cases v <;> simp [asNum] at hq
          rw [hq]
      · rcases hg : getField j "documents" with _ | v
        · rw [hg] at hd; simp [asArr] at hd
        · rw [hg] at hd
          cases v <;> simp [asArr] at hd
          rw [hd]

/-- C7: with a configured, cached store and valid content and embedding,
`addDocument` fails with StoreFull exactly when the store already holds at
least `MAX_STORE_SIZE` documents; the failure leaves the whole state (in
particular the file on disk) unchanged; and below the ceiling (so in
particular at `MAX_STORE_SIZE - 1` documents) the insert succeeds and
persists the store with the new document appended. -/
theorem addDocument_storeFull_spec (s : VState) (p : String) (st : Store)
    (c : String) (emb : List JsNum) (t : ℤ)
    (hp : s.storePath = some p) (hd : s.storeData = some st)
    (hc : contentOk c = true)
    (he : validateEmbedding emb st.embeddingSize = .ok ()) :
    ((addDocument s c emb t).1 = .error .storeFull ↔
      MAX_STORE_SIZE ≤ st.documents.length) ∧
    (MAX_STORE_SIZE ≤ st.documents.length → (addDocument s c emb t).2 = s) ∧
    (st.documents.length < MAX_STORE_SIZE →
      (addDocument s c emb t).1 = .ok () ∧
      fsGet (addDocument s c emb t).2.fs p =
        some ⟨st.embeddingSize, st.documents ++ [⟨c, emb, t⟩]⟩) := by
  have hg : getStoreData s = (.ok st, s) := by
    rw [getStoreData, hp, hd]
  by_cases hfull : MAX_STORE_SIZE ≤ st.documents.length
  · have hred : addDocument s c emb t = (.error .storeFull, s) := by
      rw [addDocument, hg]
      simp [hc, he, hfull]
    rw [hred]
    exact ⟨by simp [hfull], fun _ => rfl, fun hlt => absurd hfull (by omega)⟩
  · have hred : addDocument s c emb t =
        (.ok (), { s with
          storeData := some ⟨st.embeddingSize, st.documents ++ [⟨c, emb, t⟩]⟩
          fs := fsSet s.fs p ⟨st.embeddingSize, st.documents ++ [⟨c, emb, t⟩]⟩ }) := by
      rw [addDocument, hg]
      simp [hc, he, hfull, hp]
    rw [hred]
    refine ⟨by simp [hfull], fun h => absurd h hfull, fun _ => ⟨rfl, ?_⟩⟩
    exact fsGet_fsSet_self s.fs p _

/-- C7 witness: the StoreFull characterization applied to the concrete
state whose cache holds exactly `MAX_STORE_SIZE` documents, hypotheses
discharged by evaluation. -/
theorem addDocument_storeFull_spec_witness :
    ((addDocument fullState "x" [.num 0, .num 0, .num 0] 5).1 = .error .storeFull ↔
      MAX_STORE_SIZE ≤ fullStore.documents.length) ∧
    (MAX_STORE_SIZE ≤ fullStore.documents.length →
      (addDocument fullState "x" [.num 0, .num 0, .num 0] 5).2 = fullState) ∧
    (fullStore.documents.length < MAX_STORE_SIZE →
      (addDocument fullState "x" [.num 0, .num 0, .num 0] 5).1 = .ok () ∧
      fsGet (addDocument fullState "x" [.num 0, .num 0, .num 0] 5).2.fs "store.json" =
        some ⟨fullStore.embeddingSize,
          fullStore.documents ++ [⟨"x", [.num 0, .num 0, .num 0], 5⟩]⟩) :=
  addDocument_storeFull_spec fullState "store.json" fullStore
    "x" [.num 0, .num 0, .num 0] 5 rfl rfl (by decide) (by decide)

/-- C8: for a configured store (path set, store cached), `addDocument`
fails with an InvalidInput-class error exactly when the content is empty or
all-whitespace, or the embedding's length differs from the configured
`embeddingSize`, or some element is not a finite number; and on such a
failure the state — in particular the filesystem — is exactly as before. -/
theorem addDocument_invalidInput_spec (s : VState) (p : String) (st : Store)
    (c : String) (emb : List JsNum) (t : ℤ)
    (hp : s.storePath = some p) (hd : s.storeData = some st) :
    ((isInvalidInputResult (addDocument s c emb t).1 = true) ↔
      (contentOk c = false ∨ (emb.length : ℚ) ≠ st.embeddingSize ∨
        ∃ v ∈ emb, v.isFiniteNumber = false)) ∧
    (isInvalidInputResult (addDocument s c emb t).1 = true →
      (addDocument s c emb t).2 = s) := by
  have hg : getStoreData s = (.ok st, s) := by
    rw [getStoreData, hp, hd]
  by_cases hc : contentOk c
  · by_cases hlen : (emb.length : ℚ) = st.embeddingSize
    · by_cases hfin : ∃ v ∈ emb, v.isFiniteNumber = false
      · have he : validateEmbedding emb st.embeddingSize = .error .invalidEmbedding := by
          rw [validateEmbedding, if_neg (not_not_intro hlen), if_pos]
          simpa [List.any_eq_true] using hfin
        have hred : addDocument s c emb t = (.error .invalidEmbedding, s) := by
          rw [addDocument, hg]
          simp [hc, he]
        rw [hred]
        exact ⟨by simp [isInvalidInputResult, VErr.isInvalidInput, hfin], fun _ => rfl⟩
      · have he : validateEmbedding emb st.embeddingSize = .ok () := by
          rw [validateEmbedding, if_neg (not_not_intro hlen), if_neg]
          simpa [List.any_eq_true] using hfin
        by_cases hfull : MAX_STORE_SIZE ≤ st.documents.length
        · have hred : addDocument s c emb t = (.error .storeFull, s) := by
            rw [addDocument, hg]
            simp [hc, he, hfull]
          rw [hred]
          exact ⟨by simp [isInvalidInputResult, VErr.isInvalidInput, hc, hlen, hfin],
            by simp [isInvalidInputResult, VErr.isInvalidInput]⟩
        · have hred : addDocument s c emb t =
              (.ok (), { s with
                storeData := some ⟨st.embeddingSize, st.documents ++ [⟨c, emb, t⟩]⟩
                fs := fsSet s.fs p ⟨st.embeddingSize, st.documents ++ [⟨c, emb, t⟩]⟩ }) := by
            rw [addDocument, hg]
            simp [hc, he, hfull, hp]
          rw [hred]
          exact ⟨by simp [isInvalidInputResult, hc, hlen, hfin],
            by simp [isInvalidInputResult]⟩
    · have he : validateEmbedding emb st.embeddingSize = .error .invalidEmbedding := by
        rw [validateEmbedding, if_pos hlen]
      have hred : addDocument s c emb t = (.error .invalidEmbedding, s) := by
        rw [addDocument, hg]
        simp [hc, he]
      rw [hred]
      exact ⟨by simp [isInvalidInputResult, VErr.isInvalidInput, hlen], fun _ => rfl⟩
  · have hred : addDocument s c emb t = (.error .invalidContent, s) := by
      rw [addDocument]
      simp [hc]
    rw [hred]
    refine ⟨by simp [isInvalidInputResult, VErr.isInvalidInput, *], fun _ => rfl⟩

/-- C8 witness: the InvalidInput characterization applied to a concrete
configured state with an empty content and an embedding of the wrong
length, hypotheses discharged by evaluation. -/
theorem addDocument_invalidInput_spec_witness :
    ((isInvalidInputResult (addDocument preConfState "" [.num 1] 7).1 = true) ↔
      (contentOk "" = false ∨ (([JsNum.num 1].length : ℚ)) ≠ (3 : ℚ) ∨
        ∃ v ∈ [JsNum.num 1], v.isFiniteNumber = false)) ∧
    (isInvalidInputResult (addDocument preConfState "" [.num 1] 7).1 = true →
      (addDocument preConfState "" [.num 1] 7).2 = preConfState) :=
  addDocument_invalidInput_spec preConfState "old.json" ⟨3, []⟩ "" [.num 1] 7 rfl rfl

/-- C4 counterexample: a `configureStorePath` call that fails with
SchemaMismatch (the file at the new path has `embeddingSize` 3, the caller
supplies 5) does *not* leave the process state as it was: the configured
store path has been switched to the new path and the cached Store has been
cleared before the check runs. -/
theorem configureStorePath_not_rollback :
    (configureStorePath (fun _ => true) preConfState "new.json" (some 5)).1 =
      .error .schemaMismatch ∧
    (configureStorePath (fun _ => true) preConfState "new.json" (some 5)).2 ≠
      preConfState ∧
    (configureStorePath (fun _ => true) preConfState "new.json" (some 5)).2.storePath =
      some "new.json" ∧
    (configureStorePath (fun _ => true) preConfState "new.json" (some 5)).2.storeData =
      none := by
  exact ⟨rfl, by decide, rfl, rfl⟩

/-- C4 (amended): a failing `configureStorePath` leaves every file
unchanged, and a failure on path validation leaves the whole state
unchanged; but a failure after path validation (SchemaMismatch or a missing
embedding size) leaves the process state mutated: the configured path is
the new path and the cached Store is invalidated. -/
theorem configureStorePath_failure_spec (isValidPath : String → Bool)
    (s : VState) (p : String) (esz : Option ℚ) (err : VErr)
    (h : (configureStorePath isValidPath s p esz).1 = .error err) :
    (configureStorePath isValidPath s p esz).2.fs = s.fs ∧
    (isValidPath p = false → (configureStorePath isValidPath s p esz).2 = s) ∧
    (isValidPath p = true → (configureStorePath isValidPath s p esz).2 =
      { s with storePath := some p, storeData := none }) := by
  by_cases hv : isValidPath p
  · rcases hfs : fsGet s.fs p with _ | existing
    · rcases esz with _ | n
      · have hred : configureStorePath isValidPath s p none =
            (.error .missingEmbeddingSize,
              { s with storePath := some p, storeData := none }) := by
          rw [configureStorePath, if_neg (not_not_intro hv)]
          simp only [hfs]
        rw [hred]
        exact ⟨rfl, fun hf => absurd hv (by simp [hf]), fun _ => rfl⟩
      · have hred : configureStorePath isValidPath s p (some n) =
            (.ok (), { s with storePath := some p, storeData := some ⟨n, []⟩
                              fs := fsSet s.fs p ⟨n, []⟩ }) := by
          rw [configureStorePath, if_neg (not_not_intro hv)]
          simp only [hfs]
        rw [hred] at h
        simp at h
    · rcases esz with _ | n
      · have hred : configureStorePath isValidPath s p none =
            (.ok (), { s with storePath := some p, storeData := none }) := by
          rw [configureStorePath, if_neg (not_not_intro hv)]
          simp only [hfs]
        rw [hred] at h
        simp at h
      · by_cases hm : existing.embeddingSize ≠ n
        · have hred : configureStorePath isValidPath s p (some n) =
              (.error .schemaMismatch,
                { s with storePath := some p, storeData := none }) := by
            rw [configureStorePath, if_neg (not_not_intro hv)]
            simp only [hfs]
            rw [if_pos hm]
          rw [hred]
          exact ⟨rfl, fun hf => absurd hv (by simp [hf]), fun _ => rfl⟩
        · have hred : configureStorePath isValidPath s p (some n) =
              (.ok (), { s with storePath := some p, storeData := none }) := by
            rw [configureStorePath, if_neg (not_not_intro hv)]
            simp only [hfs]
            rw [if_neg hm]
          rw [hred] at h
          simp at h
  · have hred : configureStorePath isValidPath s p esz = (.error .invalidPath, s) := by
      rw [configureStorePath, if_pos hv]
    rw [hred]
    exact ⟨rfl, fun _ => rfl, fun ht => absurd hv (by simp [ht])⟩

/-- C4 witness: the failure facts applied to the concrete SchemaMismatch
call of the counterexample state, the failure hypothesis discharged by
evaluation. -/
theorem configureStorePath_failure_spec_witness :
    (configureStorePath (fun _ => true) preConfState "new.json" (some 5)).2.fs =
      preConfState.fs ∧
    ((fun (_ : String) => true) "new.json" = false →
      (configureStorePath (fun _ => true) preConfState "new.json" (some 5)).2 =
        preConfState) ∧
    ((fun (_ : String) => true) "new.json" = true →
      (configureStorePath (fun _ => true) preConfState "new.json" (some 5)).2 =
        { preConfState with storePath := some "new.json", storeData := none }) :=
  configureStorePath_failure_spec (fun _ => true) preConfState "new.json"
    (some 5) .schemaMismatch rfl

/-- C1: evaluation of `addDocument` at a state whose in-memory cache lags
the backing file (as when another process appended a document after this
process cached the store).  `getStoreData()` is called and returns the
cached store *before* the lock is acquired, so the insert succeeds and
persists the cached single-document sequence plus the new document —
`[a, c]` — rather than the on-disk-at-lock-time sequence plus the new
document — `[a, b, c]`: document `b` is silently lost, contradicting the
claim that the persisted result is the disk sequence with the new document
appended. -/
theorem addDocument_uses_stale_cache :
    (addDocument staleCacheState "c" [.num 3] 2).1 = .ok () ∧
    fsGet staleCacheState.fs "store.json" =
      some ⟨1, [⟨"a", [.num 1], 0⟩, ⟨"b", [.num 2], 1⟩]⟩ ∧
    fsGet (addDocument staleCacheState "c" [.num 3] 2).2.fs "store.json" =
      some ⟨1, [⟨"a", [.num 1], 0⟩, ⟨"c", [.num 3], 2⟩]⟩ ∧
    fsGet (addDocument staleCacheState "c" [.num 3] 2).2.fs "store.json" ≠
      some ⟨1, [⟨"a", [.num 1], 0⟩, ⟨"b", [.num 2], 1⟩, ⟨"c", [.num 3], 2⟩]⟩ := by
  exact ⟨rfl, rfl, rfl, by decide⟩

/-- C3: for every similarity function, query, document list and positive
`k`, `topKSimilar` is the first `k` of the stable descending sort of the
scored documents: its length is exactly `min k n`; it is sorted descending
by score; no scored document appears more often than in the scored input
(no duplication); and the sort keeps score-ties in their original insertion
order (a tied pair that is a sublist of the scored input stays a sublist of
the sorted output). -/
theorem topKSimilar_spec (sim : List JsNum → List JsNum → ℚ)
    (queryEmbedding : List JsNum) (documents : List Document) (k : ℕ)
    (hk : 0 < k) :
    topKSimilar sim queryEmbedding documents k =
      ((scoreDocs sim queryEmbedding documents).mergeSort scoredLE).take k ∧
    (topKSimilar sim queryEmbedding documents k).length = min k documents.length ∧
    List.Pairwise (fun a b : ScoredDocument => b.score ≤ a.score)
      (topKSimilar sim queryEmbedding documents k) ∧
    (∀ sd : ScoredDocument,
      (topKSimilar sim queryEmbedding documents k).count sd ≤
        (scoreDocs sim queryEmbedding documents).count sd) ∧
    (∀ a b : ScoredDocument, a.score = b.score →
      List.Sublist [a, b] (scoreDocs sim queryEmbedding documents) →
      List.Sublist [a, b] ((scoreDocs sim queryEmbedding documents).mergeSort scoredLE)) := by
  refine ⟨rfl, ?_, ?_, ?_, ?_⟩
  · rw [topKSimilar, List.length_take, List.length_mergeSort, scoreDocs,
      List.length_map]
  · have hs := List.sorted_mergeSort scoredLE_trans scoredLE_total
      (scoreDocs sim queryEmbedding documents)
    have ht := List.Pairwise.sublist
      (List.take_sublist k ((scoreDocs sim queryEmbedding documents).mergeSort scoredLE)) hs
    rw [topKSimilar]
    exact ht.imp (fun h => by simpa [scoredLE] using h)
  · intro sd
    have h1 := (List.take_sublist k
      ((scoreDocs sim queryEmbedding documents).mergeSort scoredLE)).count_le sd
    have h2 := (List.mergeSort_perm
      (scoreDocs sim queryEmbedding documents) scoredLE).count_eq sd
    rw [topKSimilar]
    omega
  · intro a b hab hsub
    exact List.pair_sublist_mergeSort scoredLE_trans scoredLE_total
      (by simp [scoredLE, hab]) hsub

/-- C3 witness: the ranking facts applied at a concrete similarity
function, query, single-document list and `k = 1`. -/
theorem topKSimilar_spec_witness :
    0 < 1 ∧
    (topKSimilar (fun _ _ => (0 : ℚ)) [] [doc3] 1 =
      ((scoreDocs (fun _ _ => (0 : ℚ)) [] [doc3]).mergeSort scoredLE).take 1 ∧
    (topKSimilar (fun _ _ => (0 : ℚ)) [] [doc3] 1).length = min 1 [doc3].length ∧
    List.Pairwise (fun a b : ScoredDocument => b.score ≤ a.score)
      (topKSimilar (fun _ _ => (0 : ℚ)) [] [doc3] 1) ∧
    (∀ sd : ScoredDocument,
      (topKSimilar (fun _ _ => (0 : ℚ)) [] [doc3] 1).count sd ≤
        (scoreDocs (fun _ _ => (0 : ℚ)) [] [doc3]).count sd) ∧
    (∀ a b : ScoredDocument, a.score = b.score →
      List.Sublist [a, b] (scoreDocs (fun _ _ => (0 : ℚ)) [] [doc3]) →
      List.Sublist [a, b] ((scoreDocs (fun _ _ => (0 : ℚ)) [] [doc3]).mergeSort scoredLE))) :=
  ⟨Nat.one_pos, topKSimilar_spec (fun _ _ => (0 : ℚ)) [] [doc3] 1 Nat.one_pos⟩

/-- C10: every document returned by the ranking carries the three declared
`Document` fields of some stored document unchanged together with a `score`
field equal to the similarity of the query embedding and that document's
embedding; and `search` mutates neither the filesystem nor a cached store
(the stored documents are untouched by a query). -/
theorem search_results_spec (sim : List JsNum → List JsNum → ℚ) :
    (∀ (queryEmbedding : List JsNum) (documents : List Document) (k : ℕ)
      (sd : ScoredDocument),
      sd ∈ topKSimilar sim queryEmbedding documents k →
      ∃ d ∈ documents, sd.content = d.content ∧ sd.embedding = d.embedding ∧
        sd.timestamp = d.timestamp ∧ sd.score = sim queryEmbedding d.embedding) ∧
    (∀ (s : VState) (q : List JsNum) (k : ℤ)
      (r : Except VErr (List ScoredDocument)) (s' : VState),
      search sim s q k = (r, s') →
      s'.fs = s.fs ∧ ∀ st, s.storeData = some st → s'.storeData = some st) := by
  constructor
  · intro queryEmbedding documents k sd hmem
    rw [topKSimilar] at hmem
    have h1 : sd ∈ (scoreDocs sim queryEmbedding documents).mergeSort scoredLE :=
      (List.take_sublist k _).subset hmem
    have h2 : sd ∈ scoreDocs sim queryEmbedding documents :=
      List.mem_mergeSort.mp h1
    rw [scoreDocs] at h2
    obtain ⟨d, hd, heq⟩ := List.mem_map.mp h2
    exact ⟨d, hd, by rw [← heq], by rw [← heq], by rw [← heq], by rw [← heq]⟩
  · intro s q k r s' h
    obtain ⟨hfs, hsp, hcache⟩ := getStoreData_state s
    rcases hp : s.storePath with _ | p
    · have hred : search sim s q k = (.error .notConfigured, s) := by
        simp only [search, hp]
      rw [hred] at h
      cases h
      exact ⟨rfl, fun _ h => h⟩
    · rcases hg : getStoreData s with ⟨res, s1⟩
      rw [hg] at hfs hsp hcache
      have hfs1 : s1.fs = s.fs := hfs
      have hcache1 : ∀ st, s.storeData = some st → s1 = s := hcache
      rcases res with e | st
      · have hred : search sim s q k = (.error e, s1) := by
          simp only [search, hp, hg]
        rw [hred] at h
        cases h
        exact ⟨hfs1, fun st2 hst => by rw [hcache1 st2 hst]; exact hst⟩
      · rcases hv : validateEmbedding q st.embeddingSize with e | u
        · have hred : search sim s q k = (.error e, s1) := by
            simp only [search, hp, hg, hv]
          rw [hred] at h
          cases h
          exact ⟨hfs1, fun st2 hst => by rw [hcache1 st2 hst]; exact hst⟩
        · by_cases hkpos : k ≤ 0
          · have hred : search sim s q k = (.error .invalidK, s1) := by
              simp only [search, hp, hg, hv]
              rw [if_pos hkpos]
            rw [hred] at h
            cases h
            exact ⟨hfs1, fun st2 hst => by rw [hcache1 st2 hst]; exact hst⟩
          · have hred : search sim s q k =
                (.ok (topKSimilar sim q st.documents k.toNat), s1) := by
              simp only [search, hp, hg, hv]
              rw [if_neg hkpos]
            rw [hred] at h
            cases h
            exact ⟨hfs1, fun st2 hst => by rw [hcache1 st2 hst]; exact hst⟩

/-- C10 witness: the per-result description applied to the one result of a
concrete one-document ranking, and the no-mutation facts applied to a
concrete query call, hypotheses discharged by evaluation. -/
theorem search_results_spec_witness :
    (∃ d ∈ [doc3],
      (⟨"a", [.num 1, .num 2, .num 3], 0, 0⟩ : ScoredDocument).content = d.content ∧
      (⟨"a", [.num 1, .num 2, .num 3], 0, 0⟩ : ScoredDocument).embedding = d.embedding ∧
      (⟨"a", [.num 1, .num 2, .num 3], 0, 0⟩ : ScoredDocument).timestamp = d.timestamp ∧
      (⟨"a", [.num 1, .num 2, .num 3], 0, 0⟩ : ScoredDocument).score =
        (fun (_ _ : List JsNum) => (0 : ℚ)) [] d.embedding) ∧
    ((search (fun _ _ => (0 : ℚ)) preConfState [.num 0, .num 0, .num 0] 1).2.fs =
      preConfState.fs ∧
     ∀ st, preConfState.storeData = some st →
      (search (fun _ _ => (0 : ℚ)) preConfState [.num 0, .num 0, .num 0] 1).2.storeData =
        some st) := by
  obtain ⟨h1, h2⟩ := search_results_spec (fun _ _ => (0 : ℚ))
  constructor
  · exact h1 [] [doc3] 1 ⟨"a", [.num 1, .num 2, .num 3], 0, 0⟩
      (by simp [topKSimilar, scoreDocs, doc3])
  · exact h2 preConfState [.num 0, .num 0, .num 0] 1
      (search (fun _ _ => (0 : ℚ)) preConfState [.num 0, .num 0, .num 0] 1).1
      (search (fun _ _ => (0 : ℚ)) preConfState [.num 0, .num 0, .num 0] 1).2 rfl

/-- C9: in every state reachable from a store created by
`configureStorePath` with a given embedding size through any sequence of
inserts and queries, every document of the cached store and of the store on
disk at the configured path has an embedding whose length equals the
store's `embeddingSize`. -/
theorem reached_inv (isValidPath : String → Bool)
    (sim : List JsNum → List JsNum → ℚ) (s : VState)
    (h : Reached isValidPath sim s) : Inv s := by
  induction h with
  | configured s0 p n s' hfs hconf =>
    by_cases hv : isValidPath p
    · have hred : configureStorePath isValidPath s0 p (some n) =
          (.ok (), { s0 with storePath := some p, storeData := some ⟨n, []⟩
                             fs := fsSet s0.fs p ⟨n, []⟩ }) := by
        rw [configureStorePath, if_neg (not_not_intro hv)]
        simp only [hfs]
      rw [hred] at hconf
      cases hconf
      refine ⟨fun st2 hst2 => ?_, fun p2 st2 hp2 hst2 => ?_⟩
      · have hst2a : some (⟨n, []⟩ : Store) = some st2 := hst2
        injection hst2a with h2
        intro d hd
        rw [← h2] at hd
        cases hd
      · have hp2a : some p = some p2 := hp2
        injection hp2a with h2
        subst h2
        have hst2a : fsGet (fsSet s0.fs p ⟨n, []⟩) p = some st2 := hst2
        rw [fsGet_fsSet_self] at hst2a
        injection hst2a with h3
        intro d hd
        rw [← h3] at hd
        cases hd
    · have hred : configureStorePath isValidPath s0 p (some n) =
          (.error .invalidPath, s0) := by
        rw [configureStorePath, if_pos hv]
      rw [hred] at hconf
      cases hconf
  | add s0 c emb now r s' _ hstep ih =>
    exact addDocument_inv s0 c emb now r s' ih hstep
  | query s0 q k r s' _ hstep ih =>
    exact search_inv sim s0 q k r s' ih hstep

/-- C9 witness: the invariant at the concrete state reached by creating a
fresh store with embedding size 2 at an empty filesystem, the reachability
hypothesis discharged by one `configured` step evaluated concretely. -/
theorem reached_inv_witness :
    Inv ⟨some "a.json", some ⟨2, []⟩, [("a.json", ⟨2, []⟩)]⟩ :=
  reached_inv (fun _ => true) (fun _ _ => 0)
    ⟨some "a.json", some ⟨2, []⟩, [("a.json", ⟨2, []⟩)]⟩
    (Reached.configured ⟨none, none, []⟩ "a.json" 2
      ⟨some "a.json", some ⟨2, []⟩, [("a.json", ⟨2, []⟩)]⟩ rfl rfl)

end VectorStore
